import Mathlib

/-
Verification of the XCDF Python-binding layer (PyXCDF.cc, XCDFTupleSetter.h)
against its natural-language specification.

The binding sources drive an `XCDFFile` object from the core XCDF library.
The core library itself is not among the sources; every definition standing
in for a core operation carries a doc comment beginning `Modelled from the
spec:` and follows the specification text.  Definitions for code that is in
the sources (the record iterator loop, `getRecord`, `addField`, the
`TupleSetter` field visitor) are translated from those sources directly.

Values are modelled as rationals, machine integers as `Int`/`Nat` with an
explicit modulus where the code masks (`PyLong_AsUnsignedLongLongMask`).
-/

namespace XCDF

/-- Modelled from the spec: quantization of a raw value at a declared
resolution, `quantized = round(raw / resolution)` (spec 4.2).  The codec is
part of the core XCDF library, which is not among the binding sources. -/
def quantize (resolution : ℚ) (raw : ℚ) : ℤ :=
  round (raw / resolution)

/-- Modelled from the spec: decoding multiplies the quantized integer back
by the resolution to recover the approximate raw value (spec 4.2). -/
def dequantize (resolution : ℚ) (q : ℤ) : ℚ :=
  (q : ℚ) * resolution

/-- The value obtained by writing `raw` at a given resolution and reading it
back: dequantization of its quantization. -/
def codecRoundTrip (resolution raw : ℚ) : ℚ :=
  dequantize resolution (quantize resolution raw)

/-- Modelled from the spec: in-block delta coding of a quantized column
against the previous value in the same column (spec 4.2). -/
def deltaEncode (prev : ℤ) : List ℤ → List ℤ
  | [] => []
  | x :: xs => (x - prev) :: deltaEncode x xs

/-- Modelled from the spec: prefix-sum decoding, the exact inverse of delta
coding (spec 4.2). -/
def deltaDecode (prev : ℤ) : List ℤ → List ℤ
  | [] => []
  | d :: ds => (prev + d) :: deltaDecode (prev + d) ds

/-- Modelled from the spec: writing a column quantizes each raw value and
delta-encodes the quantized stream against the carried previous value
(spec 4.2). -/
def writeColumn (resolution : ℚ) (prev : ℤ) (xs : List ℚ) : List ℤ :=
  deltaEncode prev (xs.map (quantize resolution))

/-- Modelled from the spec: reading a column prefix-sums the deltas to
recover the quantized values and multiplies back by the resolution
(spec 4.2). -/
def readColumn (resolution : ℚ) (prev : ℤ) (ds : List ℤ) : List ℚ :=
  (deltaDecode prev ds).map (dequantize resolution)

/-- A decoded record: one list of decoded values per declared field, in
schema declaration order.  A scalar field holds one value; a vector field
holds as many values as its parent field's current value, possibly zero. -/
abbrev Rec := List (List ℚ)

/-- Modelled from the spec: reader-side state of an open `XCDFFile` — the
records the file holds, the read cursor (index of the next record a
sequential `Read` returns), and the currently loaded record whose field
values a visitor observes (spec 4.4 to 4.6).  `XCDFFile` is part of the
core library, which is not among the binding sources. -/
structure CoreFile where
  records : List Rec
  cursor : Nat
  current : Option Rec
deriving DecidableEq, Repr

/-- A freshly opened file: cursor at record 0, no record loaded. -/
def initFile (rs : List Rec) : CoreFile :=
  ⟨rs, 0, none⟩

/-- Modelled from the spec: `XCDFFile::Read` loads the next record and
advances the cursor, returning the end-of-file sentinel (`none`) when no
further records exist (spec 4.4). -/
def coreRead (f : CoreFile) : Option (Rec × CoreFile) :=
  if h : f.cursor < f.records.length then
    some (f.records.get ⟨f.cursor, h⟩,
          { f with cursor := f.cursor + 1,
                   current := some (f.records.get ⟨f.cursor, h⟩) })
  else
    none

/-- Modelled from the spec: `GetCurrentEventNumber`, the id of the record
most recently loaded (one less than the cursor). -/
def currentEventNumber (f : CoreFile) : Int :=
  (f.cursor : Int) - 1

/-- Modelled from the spec: `XCDFFile::Seek` succeeds exactly on ids inside
`[0, total records)`, loading the target record; on an out-of-range id it
returns false and leaves the cursor state unchanged (spec 4.5). -/
def coreSeek (f : CoreFile) (i : Nat) : Bool × CoreFile :=
  if h : i < f.records.length then
    (true, { f with cursor := i + 1, current := some (f.records.get ⟨i, h⟩) })
  else
    (false, f)

/-- Modelled from the spec: `XCDFFile::Rewind` resets the cursor to record 0
(spec 4.5). -/
def coreRewind (f : CoreFile) : CoreFile :=
  { f with cursor := 0, current := none }

/-- One slot of a result tuple: either `Py_None` or the `xcdf2python`
conversion of a field's decoded values. -/
inductive PyVal
  | pyNone
  | vals (xs : List ℚ)
deriving DecidableEq, Repr

/-- A Python tuple of fixed length; `none` marks a slot that has not been
set (a NULL slot of `PyTuple_New`). -/
abbrev Tuple := List (Option PyVal)

/-- `PyTuple_SetItem`: stores a value at a slot; out-of-range stores are
dropped. -/
def pyTupleSetItem (t : Tuple) (i : Nat) (v : PyVal) : Tuple :=
  t.set i (some v)

/-- State of the `TupleSetter` field visitor (XCDFTupleSetter.h): the tuple
length `nfields_`, the running field counter `ifield_`, and the tuple under
construction. -/
structure TupleSetter where
  nfields : Nat
  ifield : Nat
  tuple : Tuple
deriving DecidableEq, Repr

/-- The `TupleSetter` constructor: `PyTuple_New(nfields)` with field
counter 0 (XCDFTupleSetter.h lines 26 to 30). -/
def TupleSetter.start (n : Nat) : TupleSetter :=
  ⟨n, 0, List.replicate n none⟩

/-- The visitor callback (XCDFTupleSetter.h lines 51 to 63): a field holding
at least one value stores its converted values at slot
`ifield_ % nfields_`; a field of size zero stores `Py_None` there; either
way the field counter advances. -/
def TupleSetter.visit (ts : TupleSetter) (fd : List ℚ) : TupleSetter :=
  if 0 < fd.length then
    ⟨ts.nfields, ts.ifield + 1,
     pyTupleSetItem ts.tuple (ts.ifield % ts.nfields) (.vals fd)⟩
  else
    ⟨ts.nfields, ts.ifield + 1,
     pyTupleSetItem ts.tuple (ts.ifield % ts.nfields) .pyNone⟩

/-- Modelled from the spec: `ApplyFieldVisitor` invokes the visitor once for
each declared field of the loaded record, in schema declaration order
(spec section 6); the traversal lives in the core library. -/
def applyFieldVisitor (r : Rec) (ts : TupleSetter) : TupleSetter :=
  r.foldl TupleSetter.visit ts

/-- The tuple the binding builds for a loaded record: a `TupleSetter` sized
by `GetNFields()` (one slot per declared field), driven by
`ApplyFieldVisitor`, then read out with `GetTuple()`. -/
def buildTuple (r : Rec) : Tuple :=
  (applyFieldVisitor r (TupleSetter.start r.length)).tuple

/-- The slot expected for one field: its converted values when it holds at
least one value, `Py_None` otherwise. -/
def fieldSlot (fd : List ℚ) : Option PyVal :=
  if 0 < fd.length then some (.vals fd) else some .pyNone

/-- How driving the record iterator to exhaustion ends: the Python
`StopIteration` signal, or a raised `XCDFException` message. -/
inductive StopSignal
  | stopIteration
  | error (msg : String)
deriving DecidableEq, Repr

/-- State of the record iterator (struct `XCDFRecordIterator` in PyXCDF.cc):
the open file, the current record number `iCurrent_`, and the total record
count `iTotal_`. -/
structure IterState where
  file : CoreFile
  iCurrent : Int
  iTotal : Int
deriving DecidableEq, Repr

/-- Iterator setup performed by `XCDFRecord_iterator` (PyXCDF.cc lines 472
to 497): `iCurrent_ = 0` and `iTotal_ = GetEventCount()`; the file keeps
whatever cursor it currently has. -/
def mkIter (f : CoreFile) : IterState :=
  ⟨f, 0, (f.records.length : Int)⟩

/-- Everything observable from driving the record iterator to exhaustion:
the tuples surfaced to the caller, how many times the selection expression
was evaluated, the terminating signal, and the final file state. -/
structure IterOutcome where
  yields : List Tuple
  evalCount : Nat
  signal : StopSignal
  final : CoreFile
deriving DecidableEq, Repr

/-- The iteration loop of `XCDFRecordIterator_iternext` (PyXCDF.cc lines
177 to 229), driven to exhaustion, in the all-fields form (no
`selectField_`): while `iCurrent_ < iTotal_` and `Read()` succeeds, set
`iCurrent_` from `GetCurrentEventNumber()` (stopping if negative), consult
the selection expression once on the loaded record, skip the record when it
answers false, otherwise surface the tuple built by the `TupleSetter`
visitor; at end of file, rewind the file and stop the iteration. -/
def runIter (pred : Rec → Bool) (s : IterState) : IterOutcome :=
  if s.iCurrent < s.iTotal then
    match h : coreRead s.file with
    | some (r, f) =>
        if currentEventNumber f < 0 then
          ⟨[], 0, .stopIteration, f⟩
        else if pred r then
          let o := runIter pred ⟨f, currentEventNumber f, s.iTotal⟩
          ⟨buildTuple r :: o.yields, o.evalCount + 1, o.signal, o.final⟩
        else
          let o := runIter pred ⟨f, currentEventNumber f, s.iTotal⟩
          ⟨o.yields, o.evalCount + 1, o.signal, o.final⟩
    | none => ⟨[], 0, .stopIteration, coreRewind s.file⟩
  else ⟨[], 0, .stopIteration, coreRewind s.file⟩
termination_by s.file.records.length - s.file.cursor
decreasing_by
  all_goals
    simp only [coreRead] at h
    split at h
    case isTrue hlt =>
      cases h
      simp only
      omega
    case isFalse => exact absurd h (by simp)

/-- Result of `XCDFFile_getRecord`: the tuple handed back to Python, or a
raised `XCDFException` message. -/
inductive GetRecordResult
  | tuple (t : Tuple)
  | exn (msg : String)
deriving DecidableEq, Repr

/-- `PyLong_AsUnsignedLongLongMask`: a Python integer reduced modulo 2^64
into an unsigned 64-bit value. -/
def maskUInt64 (i : Int) : Nat :=
  (i % (2 ^ 64 : Int)).toNat

/-- `XCDFFile_getRecord` (PyXCDF.cc lines 546 to 610) in the all-fields
form, after the record id has been masked: on a successful `Seek` it builds
the tuple with the `TupleSetter` visitor and rewinds the file; on a failed
`Seek` it raises `XCDFException` with the message
`Invalid event number <id>`, leaving the file state as `Seek` left it. -/
def getRecordModel (f : CoreFile) (id : Nat) : GetRecordResult × CoreFile :=
  match coreSeek f id with
  | (true, f1) => (.tuple (buildTuple (f1.current.getD [])), coreRewind f1)
  | (false, f1) => (.exn ("Invalid event number " ++ toString id), f1)

/-- `XCDFFile_getRecord` as called from Python: the record id argument is
first masked by `PyLong_AsUnsignedLongLongMask`. -/
def getRecordPy (f : CoreFile) (i : Int) : GetRecordResult × CoreFile :=
  getRecordModel f (maskUInt64 i)

/-- The three XCDF field types the schema supports (spec section 3). -/
inductive FieldType
  | unsignedInteger
  | signedInteger
  | floatingPoint
deriving DecidableEq, Repr

/-- A declared field: name, type, resolution, and optional parent name
(spec section 3). -/
structure FieldDesc where
  name : String
  ftype : FieldType
  resolution : ℚ
  parent : Option String
deriving DecidableEq, Repr

/-- Modelled from the spec: the schema registry — the ordered field
declarations and whether the first record has been committed (spec 4.1). -/
structure Registry where
  fields : List FieldDesc
  recordCommitted : Bool
deriving DecidableEq, Repr

/-- Modelled from the spec: `declareField` of the schema registry
(spec 4.1).  It fails with a `SchemaError` when the schema is frozen (a
record has been committed), the name is already used, the resolution of a
floating-point field is not positive, or the declared parent is unresolved
or is not an already-declared scalar unsigned-integer field; otherwise the
field is appended to the registry.  The registry operation lives in the
core library, which is not among the binding sources. -/
def declareField (reg : Registry) (n : String) (ft : FieldType) (res : ℚ)
    (par : Option String) : Except String Registry :=
  if reg.recordCommitted then
    .error "field declared after the first record was committed"
  else if reg.fields.any (fun d => d.name = n) then
    .error "field name already used"
  else if ft = .floatingPoint ∧ res ≤ 0 then
    .error "resolution must be positive for a floating-point field"
  else
    match par with
    | none => .ok ⟨reg.fields ++ [⟨n, ft, res, par⟩], reg.recordCommitted⟩
    | some p =>
        match reg.fields.find? (fun d => d.name = p) with
        | none => .error "parent field not declared"
        | some pd =>
            if pd.ftype = .unsignedInteger ∧ pd.parent = none then
              .ok ⟨reg.fields ++ [⟨n, ft, res, par⟩], reg.recordCommitted⟩
            else
              .error "parent field must be a scalar unsigned-integer field"

/-- Modelled from the spec: the `XCDF_UNSIGNED_INTEGER` type tag exposed to
Python; the enum lives in the core library headers. -/
def XCDF_UNSIGNED_INTEGER : Int := 0

/-- Modelled from the spec: the `XCDF_SIGNED_INTEGER` type tag exposed to
Python. -/
def XCDF_SIGNED_INTEGER : Int := 1

/-- Modelled from the spec: the `XCDF_FLOATING_POINT` type tag exposed to
Python. -/
def XCDF_FLOATING_POINT : Int := 2

/-- The type dispatch of the `switch (ftype)` in `XCDFFile_addField`: which
declared field type a Python-supplied type code selects, if any. -/
def typeForCode (t : Int) : Option FieldType :=
  if t = XCDF_UNSIGNED_INTEGER then some .unsignedInteger
  else if t = XCDF_SIGNED_INTEGER then some .signedInteger
  else if t = XCDF_FLOATING_POINT then some .floatingPoint
  else none

/-- Result of `XCDFFile_addField`: `Py_True`, `Py_False`, or a raised
`XCDFException` message. -/
inductive AddFieldResult
  | pyTrue
  | pyFalse
  | exn (msg : String)
deriving DecidableEq, Repr

/-- `XCDFFile_addField` (PyXCDF.cc lines 612 to 692): dispatch on the type
code; an unrecognized code returns `Py_False` immediately, a recognized one
allocates the field through the core registry and returns `Py_True`, and a
`SchemaError` from the core surfaces as a raised `XCDFException` leaving
the registry unchanged. -/
def addFieldModel (reg : Registry) (n : String) (tcode : Int) (res : ℚ)
    (par : Option String) : AddFieldResult × Registry :=
  match typeForCode tcode with
  | none => (.pyFalse, reg)
  | some ft =>
      match declareField reg n ft res par with
      | .ok r => (.pyTrue, r)
      | .error e => (.exn e, reg)

/-- A concrete one-record file used as a witness input. -/
def oneRecordFile : CoreFile :=
  initFile [[[1]]]

/-- A concrete two-record, one-field file used as a witness input. -/
def twoRecords : List Rec :=
  [[[1]], [[2]]]

/-- A concrete record whose first field holds zero values. -/
def emptyFirstField : Rec :=
  [[], [1]]

/-- A concrete file whose read cursor sits past the last record. -/
def midFile : CoreFile :=
  ⟨twoRecords, 2, some [[2]]⟩

/-- A concrete registry with no fields and no committed record. -/
def emptyRegistry : Registry :=
  ⟨[], false⟩

end XCDF

namespace XCDF

theorem deltaDecode_deltaEncode (xs : List ℤ) :
    ∀ prev : ℤ, deltaDecode prev (deltaEncode prev xs) = xs := by
  induction xs with
  | nil => intro prev; rfl
  | cons x xs ih =>
      intro prev
      simp only [deltaEncode, deltaDecode, add_sub_cancel]
      exact congrArg (x :: ·) (ih x)

theorem codecRoundTrip_sub (resolution raw : ℚ) (h : resolution ≠ 0) :
    codecRoundTrip resolution raw - raw =
      resolution * ((round (raw / resolution) : ℚ) - raw / resolution) := by
  unfold codecRoundTrip dequantize quantize
  field_simp

theorem codecRoundTrip_abs_le (resolution : ℚ) (h : 0 < resolution) (raw : ℚ) :
    |codecRoundTrip resolution raw - raw| ≤ resolution / 2 := by
  rw [codecRoundTrip_sub resolution raw h.ne', abs_mul, abs_of_pos h]
  have hb : |(round (raw / resolution) : ℚ) - raw / resolution| ≤ 1 / 2 := by
    rw [abs_sub_comm]; exact abs_sub_round _
  calc resolution * |(round (raw / resolution) : ℚ) - raw / resolution|
      ≤ resolution * (1 / 2) := by
        exact mul_le_mul_of_nonneg_left hb h.le
    _ = resolution / 2 := by ring

theorem codecRoundTrip_nearest (resolution : ℚ) (h : 0 < resolution)
    (raw : ℚ) (k : ℤ) :
    |codecRoundTrip resolution raw - raw| ≤ |(k : ℚ) * resolution - raw| := by
  rw [codecRoundTrip_sub resolution raw h.ne', abs_mul, abs_of_pos h]
  have hk : (k : ℚ) * resolution - raw =
      resolution * ((k : ℚ) - raw / resolution) := by
    field_simp
  rw [hk, abs_mul, abs_of_pos h]
  apply mul_le_mul_of_nonneg_left _ h.le
  rw [abs_sub_comm, abs_sub_comm ((k : ℚ)) (raw / resolution)]
  exact round_le (raw / resolution) k

theorem codecRoundTrip_exact (resolution : ℚ) (h : 0 < resolution)
    (m : ℤ) : codecRoundTrip resolution ((m : ℚ) * resolution) = (m : ℚ) * resolution := by
  unfold codecRoundTrip dequantize quantize
  have : (m : ℚ) * resolution / resolution = (m : ℚ) := by
    field_simp
  rw [this, round_intCast]

theorem set_append_length {α : Type} (A : List α) (b : α) (C : List α) (v : α) :
    (A ++ b :: C).set A.length v = A ++ v :: C := by
  induction A with
  | nil => rfl
  | cons a A ih =>
      simp only [List.cons_append, List.length_cons, List.set, List.append_eq]
      rw [ih]

theorem visit_step (done : Rec) (x : List ℚ) (k n : Nat)
    (hlt : done.length < n) :
    TupleSetter.visit
        ⟨n, done.length, List.map fieldSlot done ++ List.replicate (k + 1) none⟩ x
      = ⟨n, done.length + 1,
         List.map fieldSlot (done ++ [x]) ++ List.replicate k none⟩ := by
  have hA : (List.map fieldSlot done).length = done.length :=
    List.length_map done fieldSlot
  have hset : ∀ v : PyVal,
      (List.map fieldSlot done ++ List.replicate (k + 1) none).set
          done.length (some v)
        = List.map fieldSlot done ++ some v :: List.replicate k none := by
    intro v
    rw [List.replicate_succ, ← hA, set_append_length]
  unfold TupleSetter.visit pyTupleSetItem
  by_cases hx : 0 < x.length
  · simp only [if_pos hx, Nat.mod_eq_of_lt hlt, hset]
    simp [fieldSlot, hx]
  · simp only [if_neg hx, Nat.mod_eq_of_lt hlt, hset]
    simp [fieldSlot, hx]

theorem foldl_visit (todo : Rec) :
    ∀ done : Rec, ∀ n : Nat, n = done.length + todo.length →
      List.foldl TupleSetter.visit
          ⟨n, done.length, List.map fieldSlot done ++ List.replicate todo.length none⟩
          todo
        = ⟨n, n, List.map fieldSlot (done ++ todo)⟩ := by
  induction todo with
  | nil =>
      intro done n hn
      simp at hn
      simp [hn]
  | cons x xs ih =>
      intro done n hn
      simp only [List.length_cons] at hn
      have hlt : done.length < n := by omega
      rw [List.foldl_cons, List.length_cons, visit_step done x xs.length n hlt]
      have hl : (done ++ [x]).length = done.length + 1 := by simp
      have hstep := ih (done ++ [x]) n (by simp; omega)
      rw [hl] at hstep
      rw [hstep]
      simp

theorem buildTuple_eq (r : Rec) : buildTuple r = List.map fieldSlot r := by
  have h := foldl_visit r [] r.length (by simp)
  simp only [List.length_nil, List.map_nil, List.nil_append] at h
  unfold buildTuple applyFieldVisitor TupleSetter.start
  rw [h]

theorem coreRead_some {f f1 : CoreFile} {r : Rec}
    (h : coreRead f = some (r, f1)) :
    ∃ hlt : f.cursor < f.records.length,
      r = f.records.get ⟨f.cursor, hlt⟩ ∧
      f1 = { f with cursor := f.cursor + 1, current := some r } := by
  unfold coreRead at h
  split at h
  case isTrue hlt =>
    simp only [Option.some.injEq, Prod.mk.injEq] at h
    obtain ⟨hr, hf⟩ := h
    exact ⟨hlt, hr.symm, by rw [← hf, hr]⟩
  case isFalse => exact absurd h (by simp)

theorem coreRead_none {f : CoreFile} (h : coreRead f = none) :
    f.records.length ≤ f.cursor := by
  unfold coreRead at h
  split at h
  case isTrue hlt => exact absurd h (by simp)
  case isFalse hge => omega

theorem runIter_spec (pred : Rec → Bool) (s : IterState) :
    s.iTotal = (s.file.records.length : Int) →
    (s.iCurrent = (s.file.cursor : Int) - 1 ∨
      (s.iCurrent = 0 ∧ s.file.cursor = 0)) →
    runIter pred s =
      ⟨List.map buildTuple
         (List.filter pred (s.file.records.drop s.file.cursor)),
       s.file.records.length - s.file.cursor,
       .stopIteration,
       ⟨s.file.records, 0, none⟩⟩ := by
  induction s using runIter.induct pred with
  | case1 s h1 r f h hneg =>
      intro ht hc
      obtain ⟨hlt, hr, hf⟩ := coreRead_some h
      rw [hf] at hneg
      unfold currentEventNumber at hneg
      simp only at hneg
      omega
  | case2 s h1 r f h hneg hpred ih =>
      intro ht hc
      obtain ⟨hlt, hr, hf⟩ := coreRead_some h
      have hrec : f.records = s.file.records := by rw [hf]
      have hcur : f.cursor = s.file.cursor + 1 := by rw [hf]
      have hstep := ih (by rw [hrec]; exact ht)
        (Or.inl (by unfold currentEventNumber; rw [hcur]))
      rw [runIter, if_pos h1]
      split
      case _ r' f' heq =>
        rw [h] at heq
        injection heq with heq
        injection heq with hr' hf'
        subst hr' hf'
        rw [if_neg hneg, if_pos hpred, hstep]
        simp only [hrec, hcur]
        rw [List.get_eq_getElem] at hr
        congr 1
        all_goals first
          | (rw [List.drop_eq_getElem_cons hlt, List.filter_cons, ← hr];
             simp [hpred])
          | omega
      case _ heq =>
        rw [h] at heq
        cases heq
  | case3 s h1 r f h hneg hpred ih =>
      intro ht hc
      obtain ⟨hlt, hr, hf⟩ := coreRead_some h
      have hrec : f.records = s.file.records := by rw [hf]
      have hcur : f.cursor = s.file.cursor + 1 := by rw [hf]
      have hstep := ih (by rw [hrec]; exact ht)
        (Or.inl (by unfold currentEventNumber; rw [hcur]))
      rw [runIter, if_pos h1]
      split
      case _ r' f' heq =>
        rw [h] at heq
        injection heq with heq
        injection heq with hr' hf'
        subst hr' hf'
        rw [if_neg hneg, if_neg hpred, hstep]
        simp only [hrec, hcur]
        rw [List.get_eq_getElem] at hr
        congr 1
        all_goals first
          | (rw [List.drop_eq_getElem_cons hlt, List.filter_cons, ← hr];
             simp [hpred])
          | omega
      case _ heq =>
        rw [h] at heq
        cases heq
  | case4 s h1 h =>
      intro ht hc
      have hge := coreRead_none h
      rw [runIter, if_pos h1]
      split
      case _ r' f' heq =>
        rw [h] at heq
        cases heq
      case _ heq =>
        rw [List.drop_eq_nil_of_le hge]
        simp only [List.filter_nil, List.map_nil]
        congr 1
        omega
  | case5 s h1 =>
      intro ht hc
      have hge : s.file.records.length ≤ s.file.cursor := by
        rcases hc with hc | ⟨hc, hc0⟩
        · rw [ht, hc] at h1; omega
        · rw [ht, hc] at h1; omega
      rw [runIter, if_neg h1]
      rw [List.drop_eq_nil_of_le hge]
      simp only [List.filter_nil, List.map_nil]
      congr 1
      omega

theorem nodup_name_eq {l : List FieldDesc}
    (hnd : (l.map FieldDesc.name).Nodup) {a b : FieldDesc}
    (ha : a ∈ l) (hb : b ∈ l) (hn : a.name = b.name) : a = b :=
  List.inj_on_of_nodup_map hnd ha hb hn

/-- Claim C1: for every sequence of typed values written at a declared
positive resolution and read back, the decoded sequence is the pointwise
round trip; each decoded value is a multiple of the resolution, is within
half a resolution of the original, and is a nearest such multiple; and
when the resolution is 1 an integer value round-trips exactly. -/
theorem claim_C1_roundtrip_quantization (res : ℚ) (hres : 0 < res)
    (prev : ℤ) (xs : List ℚ) :
    readColumn res prev (writeColumn res prev xs) =
        xs.map (codecRoundTrip res) ∧
    (∀ x ∈ xs,
        (∃ k : ℤ, codecRoundTrip res x = (k : ℚ) * res) ∧
        |codecRoundTrip res x - x| ≤ res / 2 ∧
        (∀ k : ℤ, |codecRoundTrip res x - x| ≤ |(k : ℚ) * res - x|)) ∧
    (res = 1 → ∀ x ∈ xs, (∃ m : ℤ, x = (m : ℚ)) →
        codecRoundTrip res x = x) := by
  refine ⟨?_, ?_, ?_⟩
  · unfold readColumn writeColumn
    rw [deltaDecode_deltaEncode, List.map_map]
    rfl
  · intro x _
    exact ⟨⟨quantize res x, rfl⟩, codecRoundTrip_abs_le res hres x,
           fun k => codecRoundTrip_nearest res hres x k⟩
  · rintro rfl x _ ⟨m, rfl⟩
    simpa using codecRoundTrip_exact 1 one_pos m

/-- Witness for claim C1 at resolution 1 and raw value 23/10. -/
theorem claim_C1_witness :
    |codecRoundTrip 1 (23 / 10) - 23 / 10| ≤ 1 / 2 :=
  (((claim_C1_roundtrip_quantization 1 one_pos 0 [23 / 10]).2.1
      (23 / 10) (by simp)).2.1)

/-- Claim C2 counterexample: at the out-of-range record id -1 on a
one-record file, `getRecord` does not surface the failure as a boolean —
it raises `XCDFException` (the masked id falls outside the file), though
the file state is indeed left unchanged. -/
theorem claim_C2_counterexample :
    (getRecordPy oneRecordFile (-1)).1 =
      GetRecordResult.exn "Invalid event number 18446744073709551615" ∧
    (getRecordPy oneRecordFile (-1)).2 = oneRecordFile := by
  exact ⟨rfl, rfl⟩

/-- Claim C2 amended: for every record id whose masked value is out of
range (negative Python ids mask to huge values; ids at or past the record
count stay out of range), the core `Seek` returns false and leaves the
cursor state unchanged, and the `getRecord` binding then raises
`XCDFException` with the message naming the invalid id — the binding
surfaces an exception, not a boolean, and the file state stays put. -/
theorem claim_C2_out_of_range (f : CoreFile) (i : Int)
    (h : f.records.length ≤ maskUInt64 i) :
    coreSeek f (maskUInt64 i) = (false, f) ∧
    getRecordPy f i =
      (GetRecordResult.exn
        ("Invalid event number " ++ toString (maskUInt64 i)), f) := by
  have hseek : coreSeek f (maskUInt64 i) = (false, f) := by
    unfold coreSeek
    rw [dif_neg (by omega)]
  refine ⟨hseek, ?_⟩
  unfold getRecordPy getRecordModel
  rw [hseek]

/-- Witness for the amended claim C2 at id 5 on a one-record file. -/
theorem claim_C2_witness :
    coreSeek oneRecordFile (maskUInt64 5) = (false, oneRecordFile) ∧
    getRecordPy oneRecordFile 5 =
      (GetRecordResult.exn
        ("Invalid event number " ++ toString (maskUInt64 5)),
       oneRecordFile) :=
  claim_C2_out_of_range oneRecordFile 5 (by decide)

/-- Claim C3: for every valid record id, seeking to it with `getRecord`
yields exactly the tuple that linear iteration from the start of the file
(with the trivial selection) surfaces at that position. -/
theorem claim_C3_seek_matches_linear (rs : List Rec) (i : Nat)
    (h : i < rs.length) :
    (runIter (fun _ => true) (mkIter (initFile rs))).yields.length
        = rs.length ∧
    (getRecordModel (initFile rs) i).1 =
      GetRecordResult.tuple
        ((runIter (fun _ => true) (mkIter (initFile rs))).yields.getD i []) := by
  have hrun := runIter_spec (fun _ => true) (mkIter (initFile rs)) rfl
    (Or.inr ⟨rfl, rfl⟩)
  constructor
  · rw [hrun]
    simp [mkIter, initFile]
  · have hseek : coreSeek (initFile rs) i =
        (true, ⟨rs, i + 1, some (rs.get ⟨i, h⟩)⟩) := by
      unfold coreSeek initFile
      rw [dif_pos (by simpa using h)]
    unfold getRecordModel
    rw [hrun, hseek]
    simp only [mkIter, initFile, List.drop_zero, List.filter_true]
    simp [List.getD_eq_getElem?_getD, List.getElem?_map,
          List.getElem?_eq_getElem h, List.get_eq_getElem]

/-- Witness for claim C3 at id 1 on a two-record file. -/
theorem claim_C3_witness :
    (runIter (fun _ => true) (mkIter (initFile twoRecords))).yields.length
        = twoRecords.length ∧
    (getRecordModel (initFile twoRecords) 1).1 =
      GetRecordResult.tuple
        ((runIter (fun _ => true)
            (mkIter (initFile twoRecords))).yields.getD 1 []) :=
  claim_C3_seek_matches_linear twoRecords 1 (by decide)

/-- Claim C4: during iteration with a selection predicate the evaluator is
consulted once per record of the file (the count of evaluations equals the
record count), the surfaced tuples are exactly those of the records the
predicate accepts, in order, and rejected records are never surfaced. -/
theorem claim_C4_selection_once_per_record (rs : List Rec)
    (pred : Rec → Bool) :
    (runIter pred (mkIter (initFile rs))).yields =
        List.map buildTuple (List.filter pred rs) ∧
    (runIter pred (mkIter (initFile rs))).evalCount = rs.length := by
  have hrun := runIter_spec pred (mkIter (initFile rs)) rfl
    (Or.inr ⟨rfl, rfl⟩)
  rw [hrun]
  simp [mkIter, initFile]

/-- Claim C5: the field-visitor traversal fills exactly one tuple slot per
declared field, in schema declaration order: the tuple built for a record
is the pointwise slot image of the record, so it has one entry per field. -/
theorem claim_C5_visitor_schema_order (r : Rec) :
    buildTuple r = List.map fieldSlot r ∧
    (buildTuple r).length = r.length := by
  refine ⟨buildTuple_eq r, ?_⟩
  rw [buildTuple_eq r, List.length_map]

/-- Claim C6: `declareField` fails (with a `SchemaError`) exactly when a
record has already been committed, the name is already used, the
resolution of a floating-point field is not positive, or the declared
parent is unresolved or is not an already-declared scalar
unsigned-integer field; otherwise the only effect is appending the field
to the registry. -/
theorem claim_C6_declareField_errors (reg : Registry) (n : String)
    (ft : FieldType) (res : ℚ) (par : Option String)
    (hnd : (reg.fields.map FieldDesc.name).Nodup) :
    ((∃ e, declareField reg n ft res par = Except.error e) ↔
        (reg.recordCommitted = true
          ∨ (∃ d ∈ reg.fields, d.name = n)
          ∨ (ft = FieldType.floatingPoint ∧ res ≤ 0)
          ∨ (∃ p, par = some p ∧
              ((∀ d ∈ reg.fields, d.name ≠ p)
                ∨ (∃ d ∈ reg.fields, d.name = p ∧
                    ¬(d.ftype = FieldType.unsignedInteger ∧
                      d.parent = none)))))) ∧
    ((∃ e, declareField reg n ft res par = Except.error e)
      ∨ declareField reg n ft res par =
          Except.ok ⟨reg.fields ++ [⟨n, ft, res, par⟩],
                     reg.recordCommitted⟩) := by
  unfold declareField
  by_cases h1 : reg.recordCommitted = true
  · rw [if_pos h1]
    exact ⟨⟨fun _ => Or.inl h1, fun _ => ⟨_, rfl⟩⟩, Or.inl ⟨_, rfl⟩⟩
  · rw [if_neg h1]
    by_cases h2 : reg.fields.any (fun d => d.name = n) = true
    · rw [if_pos h2]
      have hname : ∃ d ∈ reg.fields, d.name = n := by
        simpa using h2
      exact ⟨⟨fun _ => Or.inr (Or.inl hname), fun _ => ⟨_, rfl⟩⟩,
             Or.inl ⟨_, rfl⟩⟩
    · rw [if_neg h2]
      have hname : ¬∃ d ∈ reg.fields, d.name = n := by
        simpa using h2
      by_cases h3 : ft = FieldType.floatingPoint ∧ res ≤ 0
      · rw [if_pos h3]
        exact ⟨⟨fun _ => Or.inr (Or.inr (Or.inl h3)), fun _ => ⟨_, rfl⟩⟩,
               Or.inl ⟨_, rfl⟩⟩
      · rw [if_neg h3]
        cases par with
        | none =>
            refine ⟨⟨fun he => ?_, fun hcond => ?_⟩, Or.inr rfl⟩
            · obtain ⟨e, he⟩ := he
              exact Except.noConfusion he
            · rcases hcond with hh | hh | hh | ⟨p, hp, _⟩
              · exact absurd hh h1
              · exact absurd hh hname
              · exact absurd hh h3
              · exact Option.noConfusion hp
        | some p =>
            cases hfind : reg.fields.find? (fun d => d.name = p) with
            | none =>
                simp only [hfind]
                have hnop : ∀ d ∈ reg.fields, d.name ≠ p := by
                  intro d hd
                  have := List.find?_eq_none.mp hfind d hd
                  simpa using this
                refine ⟨⟨fun _ => ?_, fun _ => ⟨_, rfl⟩⟩, Or.inl ⟨_, rfl⟩⟩
                exact Or.inr (Or.inr (Or.inr ⟨p, rfl, Or.inl hnop⟩))
            | some pd =>
                simp only [hfind]
                have hmem : pd ∈ reg.fields := List.mem_of_find?_eq_some hfind
                have hpname : pd.name = p := by
                  have := List.find?_some hfind
                  simpa using this
                by_cases h4 : pd.ftype = FieldType.unsignedInteger ∧
                    pd.parent = none
                · rw [if_pos h4]
                  refine ⟨⟨fun he => ?_, fun hcond => ?_⟩, Or.inr rfl⟩
                  · obtain ⟨e, he⟩ := he
                    exact Except.noConfusion he
                  · rcases hcond with hh | hh | hh | ⟨q, hq, hbad⟩
                    · exact absurd hh h1
                    · exact absurd hh hname
                    · exact absurd hh h3
                    · rcases hbad with hall | ⟨d, hd, hdname, hdbad⟩
                      · obtain rfl : p = q := by
                          injection hq
                        exact absurd hpname (hall pd hmem)
                      · obtain rfl : p = q := by
                          injection hq
                        have : d = pd :=
                          nodup_name_eq hnd hd hmem
                            (by rw [hdname, hpname])
                        exact absurd (this ▸ h4) hdbad
                · rw [if_neg h4]
                  refine ⟨⟨fun _ => ?_, fun _ => ⟨_, rfl⟩⟩, Or.inl ⟨_, rfl⟩⟩
                  exact Or.inr (Or.inr (Or.inr
                    ⟨p, rfl, Or.inr ⟨pd, hmem, hpname, h4⟩⟩))

/-- Witness for claim C6: on an empty registry a floating-point field with
resolution 0 is refused. -/
theorem claim_C6_witness :
    ∃ e, declareField emptyRegistry "a" FieldType.floatingPoint 0 none =
      Except.error e :=
  ((claim_C6_declareField_errors emptyRegistry "a" FieldType.floatingPoint
      0 none (by simp [emptyRegistry])).1).mpr
    (Or.inr (Or.inr (Or.inl ⟨rfl, le_refl 0⟩)))

/-- Claim C7: sequential iteration over a file stops with the
`StopIteration` signal (the expected end-of-iteration terminus, distinct
by construction from a raised `XCDFException`), after surfacing at most as
many records as the file holds. -/
theorem claim_C7_eof_stops_iteration (rs : List Rec) (pred : Rec → Bool) :
    (runIter pred (mkIter (initFile rs))).signal =
        StopSignal.stopIteration ∧
    (runIter pred (mkIter (initFile rs))).yields.length ≤ rs.length := by
  have hrun := runIter_spec pred (mkIter (initFile rs)) rfl
    (Or.inr ⟨rfl, rfl⟩)
  rw [hrun]
  refine ⟨rfl, ?_⟩
  simpa [initFile] using List.length_filter_le pred rs

/-- Claim C8: a successful random-access `getRecord` leaves the file
rewound to record 0 (the state after it equals a freshly opened file over
the same records), so a subsequent sequential iteration starts from the
first record no matter which record was fetched or where the cursor stood
before. -/
theorem claim_C8_rewound_after_get (f : CoreFile) (i : Nat)
    (h : i < f.records.length) :
    (getRecordModel f i).2 = initFile f.records ∧
    ∀ pred : Rec → Bool,
      runIter pred (mkIter (getRecordModel f i).2) =
        runIter pred (mkIter (initFile f.records)) := by
  have h2 : (getRecordModel f i).2 = initFile f.records := by
    have hseek : coreSeek f i =
        (true, { f with cursor := i + 1,
                        current := some (f.records.get ⟨i, h⟩) }) := by
      unfold coreSeek
      rw [dif_pos h]
    unfold getRecordModel
    rw [hseek]
    rfl
  exact ⟨h2, fun pred => by rw [h2]⟩

/-- Witness for claim C8 on a file whose cursor sits past the last
record. -/
theorem claim_C8_witness :
    (getRecordModel midFile 0).2 = initFile midFile.records :=
  (claim_C8_rewound_after_get midFile 0 (by decide)).1

/-- Claim C9: `addField` with an unrecognized type code returns `Py_False`
without raising and without touching the registry; with a recognized type
code and a successful core allocation it returns `Py_True`. -/
theorem claim_C9_addField_type_dispatch (reg : Registry) (n : String)
    (tcode : Int) (res : ℚ) (par : Option String) :
    ((tcode ≠ XCDF_UNSIGNED_INTEGER ∧ tcode ≠ XCDF_SIGNED_INTEGER ∧
        tcode ≠ XCDF_FLOATING_POINT) →
      addFieldModel reg n tcode res par = (AddFieldResult.pyFalse, reg)) ∧
    (∀ ft r1, typeForCode tcode = some ft →
      declareField reg n ft res par = Except.ok r1 →
      addFieldModel reg n tcode res par = (AddFieldResult.pyTrue, r1)) := by
  constructor
  · rintro ⟨h0, h1, h2⟩
    unfold addFieldModel typeForCode
    rw [if_neg h0, if_neg h1, if_neg h2]
  · intro ft r1 hft hok
    unfold addFieldModel
    simp only [hft, hok]

/-- Witness for claim C9: type code 7 is refused with `Py_False` and the
registry untouched; type code 2 (floating point) with resolution 1
succeeds with `Py_True`. -/
theorem claim_C9_witness :
    addFieldModel emptyRegistry "x" 7 1 none =
        (AddFieldResult.pyFalse, emptyRegistry) ∧
    addFieldModel emptyRegistry "x" 2 1 none =
        (AddFieldResult.pyTrue,
         ⟨[⟨"x", FieldType.floatingPoint, 1, none⟩], false⟩) :=
  ⟨(claim_C9_addField_type_dispatch emptyRegistry "x" 7 1 none).1
      (by decide),
   (claim_C9_addField_type_dispatch emptyRegistry "x" 2 1 none).2
      FieldType.floatingPoint ⟨[⟨"x", FieldType.floatingPoint, 1, none⟩], false⟩
      (by decide) (by rfl)⟩

/-- Claim C10: when a field holds zero values in the current record, the
tuple built by the field visitor carries `Py_None` in that field's slot. -/
theorem claim_C10_empty_field_slot_none (r : Rec) (k : Nat)
    (hk : k < r.length) (he : r.getD k [] = []) :
    (buildTuple r).getD k none = some PyVal.pyNone := by
  have he' : r[k] = [] := by
    have hgd : r.getD k [] = r[k] := by
      rw [List.getD_eq_getElem?_getD, List.getElem?_eq_getElem hk]
      rfl
    rw [← hgd]
    exact he
  rw [buildTuple_eq, List.getD_eq_getElem?_getD, List.getElem?_map,
      List.getElem?_eq_getElem hk]
  simp [he', fieldSlot]

/-- Witness for claim C10 on a record whose first field is empty. -/
theorem claim_C10_witness :
    (buildTuple emptyFirstField).getD 0 none = some PyVal.pyNone :=
  claim_C10_empty_field_slot_none emptyFirstField 0 (by decide) (by decide)

end XCDF
